import Mathlib

/-!
Verification of the agkbuild release-composition and synthesis engine.

This file gives a shallow embedding, in Lean 4, of the specifiable core of
`agkbuild.py`: the release-folder naming rules, the Android manifest and
resource synthesis steps, the static validation rules of `export_apk`, and
the guaranteed-restoration protocol of `AgkBuild.__init__`.  Each definition
is translated from the Python source (file `agkbuild.py`); line numbers in
doc comments refer to that file.  Python exceptions are modelled with an
explicit error type and `Except`; the filesystem is modelled as an
association list from paths (lists of components) to file contents.
-/

namespace Agk

/-- The Python exceptions raised by the embedded code.  `valueError` and
`keyError` carry the message of the corresponding `raise` statement;
`typeError` stands for an exception raised by the Python runtime itself
(such as calling `next` on a list). -/
inductive PyErr where
  | valueError (msg : String)
  | keyError (msg : String)
  | keyErrorRaw (key : String)
  | typeError
  | indexError
  | fileNotFound
  | fileExists
  deriving DecidableEq, Repr

/-! ## Literal string scanning

`re.sub`/`re.subn` with a metacharacter-free pattern replace every
non-overlapping occurrence of the pattern, left to right.  The scanners below
are written with an explicit fuel argument (the length of the scanned text)
so that they are structurally recursive and reduce inside `decide`/`rfl`. -/

/-- Number of non-overlapping occurrences of `pat` in the text, scanning left
to right, as counted by `re.subn` with a literal pattern.  `fuel` must be at
least the length of the text; callers pass the length itself. -/
def countOccsF (pat : List Char) : Nat → List Char → Nat
  | 0, _ => 0
  | _ + 1, [] => 0
  | f + 1, c :: cs =>
    if pat ≠ [] ∧ pat.isPrefixOf (c :: cs) then
      1 + countOccsF pat f (cs.drop (pat.length - 1))
    else
      countOccsF pat f cs

/-- Occurrence count of a literal pattern in a string (`re.subn` count). -/
def countOccsS (pat s : String) : Nat :=
  countOccsF pat.data s.data.length s.data

/-- Replace every non-overlapping occurrence of `pat` by `repl`, scanning
left to right: the effect of `re.sub` with a literal pattern. -/
def replaceLitF (pat repl : List Char) : Nat → List Char → List Char
  | 0, l => l
  | _ + 1, [] => []
  | f + 1, c :: cs =>
    if pat ≠ [] ∧ pat.isPrefixOf (c :: cs) then
      repl ++ replaceLitF pat repl f (cs.drop (pat.length - 1))
    else
      c :: replaceLitF pat repl f cs

/-- String version of `replaceLitF`. -/
def replaceLitS (pat repl s : String) : String :=
  String.mk (replaceLitF pat.data repl.data s.data.length s.data)

/-- Whether the literal pattern occurs somewhere in `s`. -/
def containsLit (pat s : String) : Bool :=
  decide (countOccsS pat s ≠ 0)

/-! ## Release Path Namer (`AgkProject`, agkbuild.py lines 242-294) -/

/-- The character class kept by `AgkProject.safe_name`
(`re.sub(r'[^A-Za-z0-9_]', '', self.name)`, lines 242-245). -/
def isWordChar (c : Char) : Bool :=
  (decide ('A' ≤ c) && decide (c ≤ 'Z')) ||
  (decide ('a' ≤ c) && decide (c ≤ 'z')) ||
  (decide ('0' ≤ c) && decide (c ≤ '9')) ||
  c = '_'

/-- Model of `AgkProject.safe_name` (lines 242-245): remove every character that is
not a letter, digit or underscore from the project name. -/
def safe_name (name : String) : String :=
  String.mk (name.data.filter isWordChar)

/-- The two/three-letter architecture codes contributed by a set of
architecture flags, in definition order (`x86` before `x64`), each with its
leading `x` stripped (`a.name[1:]` in `_Architecture.__str__`, line 80).
Bit 0 is `_Architecture.x86`, bit 1 is `_Architecture.x64`. -/
def archCodes (arch : Nat) : List String :=
  (if arch.testBit 0 then ["86"] else []) ++ (if arch.testBit 1 then ["64"] else [])

/-- Model of `_Architecture.__str__` (lines 79-80):
`'x' + '_'.join([a.name[1:] for a in _Architecture if self & a.value])`. -/
def archStr (arch : Nat) : String :=
  "x" ++ String.intercalate "_" (archCodes arch)

/-- An optional release-folder segment: Python renders `f'_{v}' if v else ''`,
so an empty (falsy) value contributes nothing, a non-empty value contributes
the separator followed by the value. -/
def optSeg (s : String) : String :=
  if s ≠ "" then "_" ++ s else ""

/-- The final folder name computed by `AgkProject.get_release_folder`
(lines 273-283).  `version` and `releaseName` model `self._version` and
`self._release_name` with `""` standing for Python-falsy (absent); `arch`
models the `_Architecture` flag value with `0` standing for `None`/empty
(both are falsy in `if architectures`). -/
def releaseFolderName (name version releaseName platformName : String) (arch : Nat) : String :=
  safe_name name ++ optSeg version ++ "_" ++ platformName ++
    (if arch ≠ 0 then "_" ++ archStr arch else "") ++ optSeg releaseName

/-- Model of `AgkProject.get_release_folder` (lines 273-283): the returned path is
`os.path.join(self._base_path, "release", release_folder)`, modelled as the
list of its three components. -/
def get_release_folder (basePath name version releaseName platformName : String)
    (arch : Nat) : List String :=
  [basePath, "release", releaseFolderName name version releaseName platformName arch]

/-! ### Separator shape of a folder name

Predicates used to state the "no doubled or trailing underscore" property of
the Release Path Namer. -/

/-- No two adjacent underscores. -/
def noDbl : List Char → Bool
  | [] => true
  | [_] => true
  | a :: b :: rest => (!(decide (a = '_') && decide (b = '_'))) && noDbl (b :: rest)

/-- The first character, if any, is not an underscore. -/
def headNotU : List Char → Bool
  | [] => true
  | c :: _ => decide (c ≠ '_')

/-- The last character, if any, is not an underscore. -/
def lastNotU : List Char → Bool
  | [] => true
  | [c] => decide (c ≠ '_')
  | _ :: b :: rest => lastNotU (b :: rest)

/-- A well-behaved name segment: non-empty, no doubled underscore inside, and
no underscore at either end. -/
def goodSeg (s : String) : Bool :=
  decide (s ≠ "") && noDbl s.data && headNotU s.data && lastNotU s.data

theorem lastNotU_cons_cons (a b : Char) (rest : List Char) :
    lastNotU (a :: b :: rest) = lastNotU (b :: rest) := rfl

theorem noDbl_cons_cons (a b : Char) (rest : List Char) :
    noDbl (a :: b :: rest) =
      ((!(decide (a = '_') && decide (b = '_'))) && noDbl (b :: rest)) := rfl

theorem noDbl_of_cons (a : Char) (l : List Char) (h : noDbl (a :: l) = true) :
    noDbl l = true := by
  cases l with
  | nil => rfl
  | cons b t =>
    rw [noDbl_cons_cons, Bool.and_eq_true] at h
    exact h.2

theorem lastNotU_append (xs ys : List Char) (hx : lastNotU xs = true)
    (hy : lastNotU ys = true) : lastNotU (xs ++ ys) = true := by
  cases ys with
  | nil => simpa using hx
  | cons c u =>
    induction xs with
    | nil => simpa using hy
    | cons a t ih =>
      cases t with
      | nil => simpa [lastNotU_cons_cons] using hy
      | cons b t2 =>
        have hx2 : lastNotU (b :: t2) = true := by
          rw [lastNotU_cons_cons] at hx; exact hx
        have := ih hx2
        simpa [lastNotU_cons_cons] using this

theorem noDbl_append (xs ys : List Char) (hx : noDbl xs = true)
    (hy : noDbl ys = true)
    (hb : lastNotU xs = true ∨ headNotU ys = true) : noDbl (xs ++ ys) = true := by
  induction xs with
  | nil => simpa using hy
  | cons a t ih =>
    cases t with
    | nil =>
      cases ys with
      | nil => simp [noDbl]
      | cons c u =>
        have hac : ¬(a = '_' ∧ c = '_') := by
          rcases hb with hb | hb
          · intro hcontra
            simp [lastNotU, hcontra.1] at hb
          · intro hcontra
            simp [headNotU, hcontra.2] at hb
        simp only [List.cons_append, List.nil_append, noDbl_cons_cons,
          Bool.and_eq_true]
        refine ⟨?_, hy⟩
        simp only [Bool.not_eq_true', Bool.and_eq_false_iff, decide_eq_false_iff_not]
        by_cases ha : a = '_'
        · exact Or.inr (fun hc => hac ⟨ha, hc⟩)
        · exact Or.inl ha
    | cons b t2 =>
      have hpair : (!(decide (a = '_') && decide (b = '_'))) = true := by
        rw [noDbl_cons_cons, Bool.and_eq_true] at hx
        exact hx.1
      have hx2 : noDbl (b :: t2) = true := by
        rw [noDbl_cons_cons, Bool.and_eq_true] at hx
        exact hx.2
      have hb2 : lastNotU (b :: t2) = true ∨ headNotU ys = true := by
        rcases hb with hb | hb
        · exact Or.inl (by rw [lastNotU_cons_cons] at hb; exact hb)
        · exact Or.inr hb
      have htail := ih hx2 hb2
      simp only [List.cons_append] at htail ⊢
      rw [noDbl_cons_cons, Bool.and_eq_true]
      exact ⟨hpair, htail⟩

theorem headNotU_append_of_ne_nil (xs ys : List Char) (h : xs ≠ []) :
    headNotU (xs ++ ys) = headNotU xs := by
  cases xs with
  | nil => exact absurd rfl h
  | cons a t => rfl

theorem noDbl_underscore_cons (l : List Char) (h : noDbl l = true)
    (hh : headNotU l = true) : noDbl ('_' :: l) = true := by
  cases l with
  | nil => rfl
  | cons c u =>
    rw [noDbl_cons_cons, Bool.and_eq_true]
    refine ⟨?_, h⟩
    have hc : c ≠ '_' := by simpa [headNotU] using hh
    simp [hc]

theorem lastNotU_underscore_cons (l : List Char) (h : l ≠ []) :
    lastNotU ('_' :: l) = lastNotU l := by
  cases l with
  | nil => exact absurd rfl h
  | cons c u => rfl

theorem goodSeg_unpack (s : String) (h : goodSeg s = true) :
    s.data ≠ [] ∧ noDbl s.data = true ∧ headNotU s.data = true ∧
      lastNotU s.data = true := by
  simp only [goodSeg, Bool.and_eq_true, decide_eq_true_eq] at h
  refine ⟨?_, h.1.1.2, h.1.2, h.2⟩
  intro hd
  exact h.1.1.1 (String.ext hd)

theorem archStr_goodSeg (arch : Nat) : goodSeg (archStr arch) = true := by
  cases h0 : arch.testBit 0 <;> cases h1 : arch.testBit 1 <;>
    simp only [archStr, archCodes, h0, h1, if_true, if_false] <;> decide

theorem archPart_facts (arch : Nat) :
    noDbl (if arch ≠ 0 then "_" ++ archStr arch else "").data = true ∧
    lastNotU (if arch ≠ 0 then "_" ++ archStr arch else "").data = true := by
  by_cases h : arch = 0
  · simp [h, noDbl, lastNotU]
  · obtain ⟨hne, hno, hhead, hlast⟩ := goodSeg_unpack _ (archStr_goodSeg arch)
    have hdata : (if arch ≠ 0 then "_" ++ archStr arch else "").data =
        '_' :: (archStr arch).data := by
      simp [h, String.data_append]
    rw [hdata]
    refine ⟨noDbl_underscore_cons _ hno hhead, ?_⟩
    rw [lastNotU_underscore_cons _ hne]
    exact hlast

theorem optSeg_facts (s : String) (h : s = "" ∨ goodSeg s = true) :
    noDbl (optSeg s).data = true ∧ lastNotU (optSeg s).data = true := by
  rcases h with h | h
  · subst h
    simp [optSeg, noDbl, lastNotU]
  · obtain ⟨hne, hno, hhead, hlast⟩ := goodSeg_unpack s h
    have hs : s ≠ "" := by
      rintro rfl
      exact hne rfl
    have hopt : (optSeg s).data = '_' :: s.data := by
      simp [optSeg, hs, String.data_append]
    rw [hopt]
    refine ⟨noDbl_underscore_cons _ hno hhead, ?_⟩
    rw [lastNotU_underscore_cons _ hne]
    exact hlast

/-- Shape of the release-folder name under well-behaved segments: no doubled
underscore and no trailing underscore. -/
theorem releaseFolder_shape (name version releaseName platformName : String)
    (arch : Nat)
    (hn : goodSeg (safe_name name) = true)
    (hv : version = "" ∨ goodSeg version = true)
    (hr : releaseName = "" ∨ goodSeg releaseName = true)
    (hp : goodSeg platformName = true) :
    noDbl (releaseFolderName name version releaseName platformName arch).data = true ∧
    lastNotU (releaseFolderName name version releaseName platformName arch).data = true := by
  obtain ⟨hneA, hnoA, hheadA, hlastA⟩ := goodSeg_unpack _ hn
  obtain ⟨hneP, hnoP, hheadP, hlastP⟩ := goodSeg_unpack _ hp
  obtain ⟨hno1, hlast1⟩ := optSeg_facts version hv
  obtain ⟨hno5, hlast5⟩ := optSeg_facts releaseName hr
  obtain ⟨hno4, hlast4⟩ := archPart_facts arch
  have hdata : (releaseFolderName name version releaseName platformName arch).data =
      (safe_name name).data ++ ((optSeg version).data ++ ('_' :: (platformName.data ++
        ((if arch ≠ 0 then "_" ++ archStr arch else "").data ++
          (optSeg releaseName).data)))) := by
    simp [releaseFolderName, String.data_append]
  have hno45 : noDbl ((if arch ≠ 0 then "_" ++ archStr arch else "").data ++
      (optSeg releaseName).data) = true :=
    noDbl_append _ _ hno4 hno5 (Or.inl hlast4)
  have hlast45 : lastNotU ((if arch ≠ 0 then "_" ++ archStr arch else "").data ++
      (optSeg releaseName).data) = true :=
    lastNotU_append _ _ hlast4 hlast5
  have hno345 : noDbl (platformName.data ++
      ((if arch ≠ 0 then "_" ++ archStr arch else "").data ++
        (optSeg releaseName).data)) = true :=
    noDbl_append _ _ hnoP hno45 (Or.inl hlastP)
  have hlast345 : lastNotU (platformName.data ++
      ((if arch ≠ 0 then "_" ++ archStr arch else "").data ++
        (optSeg releaseName).data)) = true :=
    lastNotU_append _ _ hlastP hlast45
  have hne345 : platformName.data ++
      ((if arch ≠ 0 then "_" ++ archStr arch else "").data ++
        (optSeg releaseName).data) ≠ [] := by
    intro hcontra
    rw [List.append_eq_nil] at hcontra
    exact hneP hcontra.1
  have hhead345 : headNotU (platformName.data ++
      ((if arch ≠ 0 then "_" ++ archStr arch else "").data ++
        (optSeg releaseName).data)) = true := by
    rw [headNotU_append_of_ne_nil _ _ hneP]
    exact hheadP
  have hno2345 : noDbl ('_' :: (platformName.data ++
      ((if arch ≠ 0 then "_" ++ archStr arch else "").data ++
        (optSeg releaseName).data))) = true :=
    noDbl_underscore_cons _ hno345 hhead345
  have hlast2345 : lastNotU ('_' :: (platformName.data ++
      ((if arch ≠ 0 then "_" ++ archStr arch else "").data ++
        (optSeg releaseName).data))) = true := by
    rw [lastNotU_underscore_cons _ hne345]
    exact hlast345
  have hno12345 : noDbl ((optSeg version).data ++ ('_' :: (platformName.data ++
      ((if arch ≠ 0 then "_" ++ archStr arch else "").data ++
        (optSeg releaseName).data)))) = true :=
    noDbl_append _ _ hno1 hno2345 (Or.inl hlast1)
  have hlast12345 : lastNotU ((optSeg version).data ++ ('_' :: (platformName.data ++
      ((if arch ≠ 0 then "_" ++ archStr arch else "").data ++
        (optSeg releaseName).data)))) = true :=
    lastNotU_append _ _ hlast1 hlast2345
  rw [hdata]
  exact ⟨noDbl_append _ _ hnoA hno12345 (Or.inl hlastA),
    lastNotU_append _ _ hlastA hlast12345⟩

/-! ## Static field validations of `export_apk` (lines 486-515) -/

/-- The character class allowed in an app name: the complement of the
rejection class `[^-A-Za-z0-9 _]` at line 490. -/
def isAppNameChar (c : Char) : Bool :=
  c = '-' ||
  (decide ('A' ≤ c) && decide (c ≤ 'Z')) ||
  (decide ('a' ≤ c) && decide (c ≤ 'z')) ||
  (decide ('0' ≤ c) && decide (c ≤ '9')) ||
  c = ' ' || c = '_'

/-- The app-name checks of `export_apk` (lines 486-491): empty name, name of
more than 30 characters, and `re.search(r'[^-A-Za-z0-9 _]', app_name)`. -/
def validateAppName (appName : String) : Except PyErr Unit :=
  if appName = "" then
    .error (.valueError "You must enter an app name.")
  else if 30 < appName.data.length then
    .error (.valueError "App name must be less than 30 characters.")
  else if appName.data.any (fun c => !(isAppNameChar c)) then
    .error (.valueError
      "App name contains invalid characters, it must not contain quotes or < > characters.")
  else
    .ok ()

/-- Model of `re.match` with pattern `http[s]://` on the deep link (line 512).  The character class
`[s]` contains exactly the letter `s` and is not optional, so the pattern
matches precisely the strings that start with the literal `https://`. -/
def deepLinkSchemeMatches (deepLink : String) : Bool :=
  "https://".data.isPrefixOf deepLink.data

/-- Model of `re.match` with pattern `http[s]://.+` on the deep link (line 514): the literal `https://`
followed by at least one character, where `.` does not match a newline. -/
def deepLinkDomainMatches (deepLink : String) : Bool :=
  "https://".data.isPrefixOf deepLink.data &&
    match deepLink.data.drop 8 with
    | [] => false
    | c :: _ => c ≠ '\n'

/-- The deep-link checks of `export_apk` (lines 511-515): run only for a
truthy (non-empty) `deep_link`. -/
def validateDeepLink (deepLink : String) : Except PyErr Unit :=
  if deepLink ≠ "" then
    if !(deepLinkSchemeMatches deepLink) then
      .error (.valueError "Deep link must start with http:// or https://")
    else if !(deepLinkDomainMatches deepLink) then
      .error (.valueError "Deep link must have a domain after http:// or https://")
    else
      .ok ()
  else
    .ok ()

/-! ## Orientation selection (lines 305-309 and 421-428) -/

/-- The `Orientation` enumeration (lines 108-111); the numeric values of the
members are 6, 7 and 10. -/
inductive Orient where
  | landscape
  | portrait
  | all
  deriving DecidableEq, Repr

/-- Model of `AgkCompiler.ORIENTATION_NAMES` (lines 305-309). -/
def ORIENTATION_NAMES : Orient → String
  | .landscape => "sensorLandscape"
  | .portrait => "sensorPortrait"
  | .all => "fullSensor"

/-- Python list indexing `l[i]`: a negative index is offset by the length
once; an index that is still out of range raises `IndexError`. -/
def pyIndex (l : List α) (i : Int) : Except PyErr α :=
  let j := if i < 0 then i + l.length else i
  if h : 0 ≤ j ∧ j.toNat < l.length then
    .ok (l.get ⟨j.toNat, h.2⟩)
  else
    .error .indexError

/-- Model of the coercion `Orientation(value)` (line 423): coercing an int to the enumeration
raises `ValueError` unless the value is 6, 7 or 10. -/
def orientationOfValue (v : Int) : Except PyErr Orient :=
  if v = 6 then .ok .landscape
  else if v = 7 then .ok .portrait
  else if v = 10 then .ok .all
  else .error (.valueError "invalid Orientation value")

/-- Lines 425-428: the stored `apk_settings/orientation` value indexes the
list `[ORIENTATION_LANDSCAPE, ORIENTATION_PORTRAIT, ORIENTATION_ALL]`. -/
def orientationFromStored (v : Int) : Except PyErr Orient :=
  pyIndex [Orient.landscape, Orient.portrait, Orient.all] v

/-- Lines 421-428: a truthy `apk_orientation` keyword argument is coerced
with `Orientation(...)`; otherwise (absent, or falsy `0`) the stored setting
selects from the three-element list. -/
def selectOrientation (kwarg : Option Int) (stored : Int) : Except PyErr Orient :=
  match kwarg with
  | some v => if v ≠ 0 then orientationOfValue v else orientationFromStored stored
  | none => orientationFromStored stored

/-- Lines 647-648: `re.sub(r'screenOrientation="fullSensor"', ...)` on the
manifest template body.  `re.sub` never raises on zero matches, so the step
always succeeds; it is placed in `Except` to compare it with the checked
substitutions. -/
def manifestOrientationStep (o : Orient) (contents : String) : Except PyErr String :=
  .ok (replaceLitS "screenOrientation=\"fullSensor\""
        ("screenOrientation=\"" ++ ORIENTATION_NAMES o ++ "\"") contents)

/-! ## Manifest permission lines (lines 463-473 and 610-640)

The permission bitmask (class `Permission`, lines 83-94): bit 0 WRITE,
bit 1 INTERNET, bit 2 WAKE, bit 3 GPS (fine location), bit 4 IAP (billing),
bit 5 EXPANSION, bit 6 LOCATION (coarse), bit 7 PUSH, bit 8 CAMERA,
bit 9 VIBRATE, bit 10 RECORD_AUDIO.  `app_type` is 0 Google, 1 Amazon,
2 Ouya (lines 299-301). -/

/-- The permission-declaration block appended to the manifest header, exactly
the `new_contents +=` statements of lines 610-640 in source order. -/
def permissionBlock (flags appType : Nat) (googlePlayAppId packageName : String) : String :=
  (if flags.testBit 0 then
    "    <uses-permission android:name=\"android.permission.WRITE_EXTERNAL_STORAGE\" />"
   else "") ++
  (if flags.testBit 1 then
    "\n    <uses-permission android:name=\"android.permission.INTERNET\" />\n    <uses-permission android:name=\"android.permission.ACCESS_NETWORK_STATE\" />\n    <uses-permission android:name=\"android.permission.ACCESS_WIFI_STATE\" />\n"
   else "") ++
  (if flags.testBit 2 then
    "    <uses-permission android:name=\"android.permission.WAKE_LOCK\" />\n"
   else "") ++
  (if flags.testBit 6 ∧ appType = 0 then
    "    <uses-permission android:name=\"android.permission.ACCESS_COARSE_LOCATION\" />\n"
   else "") ++
  (if flags.testBit 3 ∧ appType = 0 then
    "    <uses-permission android:name=\"android.permission.ACCESS_FINE_LOCATION\" />\n"
   else "") ++
  (if flags.testBit 4 ∧ appType = 0 then
    "    <uses-permission android:name=\"android.permission.BILLING\" />\n"
   else "") ++
  (if flags.testBit 8 then
    "    <uses-permission android:name=\"android.permission.CAMERA\" />\n"
   else "") ++
  (if (googlePlayAppId ≠ "" ∨ flags.testBit 7) ∧ appType = 0 then
    "    <uses-permission android:name=\"com.google.android.c2dm.permission.RECEIVE\" />\n"
   else "") ++
  (if flags.testBit 7 ∧ appType = 0 then
    "    <permission android:name=\"" ++ packageName ++
      ".permission.C2D_MESSAGE\"        android:protectionLevel=\"signature\" />\n    <uses-permission android:name=\"" ++
      packageName ++ ".permission.C2D_MESSAGE\" />\n"
   else "") ++
  (if flags.testBit 5 ∧ appType = 0 then
    "    <uses-permission android:name=\"android.permission.CHECK_LICENSE\" />\n"
   else "") ++
  (if flags.testBit 9 then
    "    <uses-permission android:name=\"android.permission.VIBRATE\" />\n"
   else "") ++
  (if flags.testBit 10 then
    "    <uses-permission android:name=\"android.permission.RECORD_AUDIO\" />\n"
   else "")

/-! ## Checked template substitutions

`export_html5` (lines 1190-1194) and the `values.xml` edits of `export_apk`
(lines 813-892) perform `re.subn` and raise `ValueError` when the count is
zero.  The manifest edits (lines 647-685) use plain `re.sub` with no count
check. -/

/-- Model of `re.subn` with a literal pattern followed by `if not count: raise
ValueError(msg)`. -/
def subnLiteralCheck (pat repl contents errMsg : String) : Except PyErr String :=
  if countOccsS pat contents = 0 then
    .error (.valueError errMsg)
  else
    .ok (replaceLitS pat repl contents)

/-- Model of `export_html5` lines 1190-1194: substitute the two loader-script
placeholders into `AGKPlayer.js`, raising when either pattern is absent. -/
def editAgkPlayerJs (additionalFoldersString loadPackageString contents : String) :
    Except PyErr String :=
  match subnLiteralCheck "%%ADDITIONALFOLDERS%%" additionalFoldersString contents
    "AGKPlayer.js is corrupt, it is missing the %%ADDITIONALFOLDERS%% variable." with
  | .error e => .error e
  | .ok c1 =>
    subnLiteralCheck "%%LOADPACKAGE%%" loadPackageString c1
      "AGKPlayer.js is corrupt, it is missing the %%LOADPACKAGE%% variable."

/-- The closing tag of a resource-string entry. -/
def resClose : List Char := "</string>".data

/-- One pass of `re.subn(r'(OPEN)[^<]+(</string>)', r'\1REPL\2', text)`:
at each position, if the literal opening tag is followed by a non-empty run
of characters other than `<` and then by `</string>`, the run is replaced by
`repl` and the two groups are kept; the count of matches is returned.
Because the body class excludes `<`, the regex backtracking cannot split the
run, so this scanner is exact.  `fuel` must be at least the length of the
text; callers pass the length itself. -/
def replEntryF (openPat repl : List Char) : Nat → List Char → List Char × Nat
  | 0, l => (l, 0)
  | _ + 1, [] => ([], 0)
  | f + 1, c :: cs =>
    if openPat ≠ [] ∧ openPat.isPrefixOf (c :: cs) then
      let rest := (c :: cs).drop openPat.length
      let body := rest.takeWhile (fun ch => ch ≠ '<')
      let after := rest.dropWhile (fun ch => ch ≠ '<')
      if body ≠ [] ∧ resClose.isPrefixOf after then
        let r := replEntryF openPat repl f (after.drop resClose.length)
        (openPat ++ repl ++ resClose ++ r.1, r.2 + 1)
      else
        let r := replEntryF openPat repl f cs
        (c :: r.1, r.2)
    else
      let r := replEntryF openPat repl f cs
      (c :: r.1, r.2)

/-- Model of `contents, count = re.subn(...); if not count: raise ValueError(msg)`
for a resource-string entry pattern. -/
def subnEntryCheck (openTag repl contents errMsg : String) : Except PyErr String :=
  let r := replEntryF openTag.data repl.data contents.data.length contents.data
  if r.2 = 0 then
    .error (.valueError errMsg)
  else
    .ok (String.mk r.1)

/-- Model of `export_apk` lines 813-815: substitute the app name into the `app_name`
resource string of `values.xml`, raising when the entry is absent. -/
def valuesAppNameStep (appName contents : String) : Except PyErr String :=
  subnEntryCheck "<string name=\"app_name\">" appName contents
    "Could not find app_name entry in values.xml file."

/-! ## Firebase configuration lookup (`export_apk` lines 831-892) -/

/-- A JSON value, as loaded by `json.load` from the Firebase config file. -/
inductive Json where
  | null
  | str (s : String)
  | num (n : Int)
  | arr (items : List Json)
  | obj (fields : List (String × Json))

/-- Dictionary lookup `j[k]` restricted to objects. -/
def Json.getKey : Json → String → Option Json
  | .obj fields, k => (fields.find? (fun e => decide (e.1 = k))).map (fun e => e.2)
  | _, _ => none

/-- The string a JSON value renders as inside an f-string substitution. -/
def Json.pyStr : Json → String
  | .str s => s
  | .num n => toString n
  | .null => "None"
  | .arr _ => "<list>"
  | .obj _ => "<dict>"

/-- Model of `try: config[k1][k2] except KeyError: raise KeyError(msg)`. -/
def getPath2 (j : Json) (k1 k2 msg : String) : Except PyErr Json :=
  match (j.getKey k1).bind (fun x => x.getKey k2) with
  | some v => .ok v
  | none => .error (.keyError msg)

/-- A plain `config['client']` lookup (line 863): a missing key raises a bare
`KeyError`; a non-list value would make the comprehension iterate something
that is not a list, modelled as `typeError`. -/
def getClientList (config : Json) : Except PyErr (List Json) :=
  match config.getKey "client" with
  | some (.arr xs) => .ok xs
  | some _ => .error .typeError
  | none => .error (.keyErrorRaw "client")

/-- The comprehension filter of line 863-864:
`client['client_info']['android_client_info']['package_name'] == package_name`.
A missing key raises a bare `KeyError` while the comprehension is built. -/
def clientMatches (c : Json) (packageName : String) : Except PyErr Bool :=
  match c.getKey "client_info" with
  | none => .error (.keyErrorRaw "client_info")
  | some ci =>
    match ci.getKey "android_client_info" with
    | none => .error (.keyErrorRaw "android_client_info")
    | some aci =>
      match aci.getKey "package_name" with
      | none => .error (.keyErrorRaw "package_name")
      | some v =>
        match v with
        | .str s => .ok (decide (s = packageName))
        | _ => .ok false

/-- Build the list comprehension `[client for client in clients if ...]`. -/
def filterClients (clients : List Json) (packageName : String) :
    Except PyErr (List Json) :=
  match clients with
  | [] => .ok []
  | c :: rest => do
    let keep ← clientMatches c packageName
    let tail ← filterClients rest packageName
    .ok (if keep then c :: tail else tail)

/-- Python `next(xs, default)` applied to a *list* (line 863): a list is not
an iterator, so `next` raises `TypeError` unconditionally; the default only
applies to `StopIteration`.  (Compare line 432, where the same lookup is
written with a generator and works.) -/
def pyNextList (_ : List α) (_ : Option α) : Except PyErr α :=
  .error .typeError

/-- Model of the guarded two-key lookup (`try ... except KeyError`) for the
client sub-object (lines 868-872 and 878-882). -/
def getClientPath2 (client : Json) (k1 k2 msg : String) : Except PyErr Json :=
  match (client.getKey k1).bind (fun x => x.getKey k2) with
  | some v => .ok v
  | none => .error (.keyError msg)

/-- The Firebase section of the `values.xml` synthesis (lines 838-892),
run when a config file is given and the app type is Google or Amazon:
look up `project_info.project_number` and `project_info.firebase_url` and
substitute them, then select the client entry matching the package name with
`next([...], None)` and substitute its `mobilesdk_app_id` and `current_key`.
The steps after the client selection are unreachable because `next` on a
list raises `TypeError`, but they are embedded faithfully. -/
def firebaseValuesStep (config : Json) (packageName contents : String) :
    Except PyErr String := do
  let projectNumber ← getPath2 config "project_info" "project_number"
    "Could not find project_number entry in Firebase config file."
  let c1 ← subnEntryCheck "<string name=\"gcm_defaultSenderId\" translatable=\"false\">"
    projectNumber.pyStr contents
    "Could not find gcm_defaultSenderId entry in values.xml file."
  let firebaseUrl ← getPath2 config "project_info" "firebase_url"
    "Could not find firebase_url entry in Firebase config file."
  let c2 ← subnEntryCheck "<string name=\"firebase_database_url\" translatable=\"false\">"
    firebaseUrl.pyStr c1
    "Could not find firebase_database_url entry in values.xml file."
  let clients ← getClientList config
  let matching ← filterClients clients packageName
  let client ← pyNextList matching none
  let mobilesdkAppId ← getClientPath2 client "client_info" "mobilesdk_app_id"
    "Could not find mobilesdk_app_id entry for the android package_name in the Firebase config file."
  let c3 ← subnEntryCheck "<string name=\"google_app_id\" translatable=\"false\">"
    mobilesdkAppId.pyStr c2
    "Could not find google_app_id entry in values.xml file."
  let currentKey ← getClientPath2 client "api_key" "current_key"
    "Could not find current_key entry for the android package_name in the Firebase config file."
  let c4 ← subnEntryCheck "<string name=\"google_api_key\" translatable=\"false\">"
    currentKey.pyStr c3
    "Could not find google_app_id entry in values.xml file."
  subnEntryCheck "<string name=\"google_crash_reporting_api_key\" translatable=\"false\">"
    currentKey.pyStr c4
    "Could not find google_app_id entry in values.xml file."

/-! ## Order of checks and filesystem mutations in `export_apk`

The claim about the validation gate is a claim about the *order* of the
statements of `export_apk` (lines 476-1092), so the function is abstracted
to the sequence of its validation steps and filesystem mutations, one event
per source statement, in source order.  Events are tagged by whether they
mutate the filesystem outside the disposable `build_tmp` scratch workspace. -/

inductive ApkEvent where
  | vOutputNonempty     -- line 476
  | vOutputIsFile       -- line 478
  | vAppName            -- lines 486-491
  | vPackageName        -- lines 494-507
  | vUrlScheme          -- lines 509-510
  | vDeepLink           -- lines 511-515
  | vAppIcon            -- lines 518-522
  | vNotifIcon          -- lines 523-527
  | vOuyaIcon           -- lines 528-534 (only for the Ouya app type)
  | vFirebaseConfig     -- lines 537-541
  | vVersionName        -- lines 544-545
  | vKeystore           -- lines 548-556
  | vAlias              -- lines 557-561
  | vPushNeedsFirebase  -- lines 568-570
  | vOuyaIconSize       -- lines 996-998 (only for the Ouya app type)
  | mMakeReleaseDir     -- line 484: os.makedirs of the output directory
  | mWriteApk           -- aapt2 run writes output_file (lines 917-931, 1007-1011)
  | mRenameApkToZip     -- line 1027
  | mAppendZipEntries   -- lines 1030-1063
  | mSignApk            -- lines 1065-1078
  | mAlignApk           -- lines 1081-1088
  | mRemoveZip          -- line 1091 (finally)
  | sClearTemp          -- lines 593, 1092: _rmtree of build_tmp
  | sCopyTemplate       -- line 594
  | sWriteManifest      -- lines 805-806
  | sWriteResources     -- lines 894-895
  | sWriteScaledIcons   -- icon scaling writes under build_tmp/resOrig
  deriving DecidableEq, Repr

/-- Events that are static field validations. -/
def ApkEvent.isValidation : ApkEvent → Bool
  | .vOutputNonempty | .vOutputIsFile | .vAppName | .vPackageName | .vUrlScheme
  | .vDeepLink | .vAppIcon | .vNotifIcon | .vOuyaIcon | .vFirebaseConfig
  | .vVersionName | .vKeystore | .vAlias | .vPushNeedsFirebase | .vOuyaIconSize => true
  | _ => false

/-- Events that mutate the filesystem outside the scratch workspace. -/
def ApkEvent.isOutsideMutation : ApkEvent → Bool
  | .mMakeReleaseDir | .mWriteApk | .mRenameApkToZip | .mAppendZipEntries
  | .mSignApk | .mAlignApk | .mRemoveZip => true
  | _ => false

/-- The sequence of validation and mutation events of one `export_apk` run,
in source order.  `appType` is 0 Google, 1 Amazon, 2 Ouya; `hasAppIcon` and
`hasNotifIcon` record whether the optional icon settings are present (their
presence only adds scratch writes and, for Ouya, the icon-size check). -/
def apkExportTrace (appType : Fin 3) (hasAppIcon hasNotifIcon : Bool) : List ApkEvent :=
  [.vOutputNonempty, .vOutputIsFile, .mMakeReleaseDir, .vAppName, .vPackageName,
   .vUrlScheme, .vDeepLink, .vAppIcon, .vNotifIcon] ++
  (if appType = 2 then [.vOuyaIcon] else []) ++
  [.vFirebaseConfig, .vVersionName, .vKeystore, .vAlias, .vPushNeedsFirebase,
   .sClearTemp, .sCopyTemplate, .sWriteManifest, .sWriteResources] ++
  (if hasAppIcon then [.sWriteScaledIcons] else []) ++
  (if hasNotifIcon ∧ appType ≠ 2 then [.sWriteScaledIcons] else []) ++
  (if appType = 2 then [.vOuyaIconSize, .sWriteScaledIcons] else []) ++
  [.mWriteApk, .mRenameApkToZip, .mAppendZipEntries, .mSignApk, .mAlignApk,
   .mRemoveZip, .sClearTemp]

/-- The ordering property claimed of the validation gate: every validation
event precedes every mutation of the filesystem outside the scratch
workspace. -/
def apkValidationsFirst (t : List ApkEvent) : Prop :=
  ∀ i j : Fin t.length,
    (t.get i).isValidation = true → (t.get j).isOutsideMutation = true → (i : Nat) < (j : Nat)

/-! ## The rename/restore protocol of `AgkBuild.__init__` (lines 1344-1440)

The filesystem is an association list from paths (lists of components,
relative to the project base path) to file contents; directories are
implicit.  Only the operations used by the protocol are modelled. -/

/-- A path, as a list of components relative to the project base path. -/
abbrev FPath := List String

/-- A filesystem: an association list from paths to file contents. -/
abbrev FS := List (FPath × String)

/-- The content of the file at `p`, if any. -/
def fsGet (fs : FS) (p : FPath) : Option String :=
  (fs.find? (fun e => decide (e.1 = p))).map (fun e => e.2)

/-- Remove the file at `p`. -/
def fsErase (fs : FS) (p : FPath) : FS :=
  fs.filter (fun e => decide (e.1 ≠ p))

/-- Create or overwrite the file at `p`. -/
def fsSet (fs : FS) (p : FPath) (c : String) : FS :=
  (p, c) :: fsErase fs p

/-- Model of `os.rename(src, dst)` on Windows: the source must exist and the
destination must not. -/
def osRename (fs : FS) (src dst : FPath) : Except PyErr FS :=
  match fsGet fs src with
  | none => .error .fileNotFound
  | some c =>
    if (fsGet fs dst).isSome then .error .fileExists
    else .ok (fsSet (fsErase fs src) dst c)

/-- Model of `os.replace(src, dst)`: the source must exist; the destination is
overwritten. -/
def osReplace (fs : FS) (src dst : FPath) : Except PyErr FS :=
  match fsGet fs src with
  | none => .error .fileNotFound
  | some c => .ok (fsSet (fsErase fs src) dst c)

/-- The files whose paths lie under the directory `dir`, in filesystem
order: the files visited by `os.walk(dir)`. -/
def filesUnder (fs : FS) (dir : FPath) : FS :=
  fs.filter (fun e => dir.isPrefixOf e.1)

/-- Model of `_rmtree(dir)` (lines 114-125): removes the tree, tolerating a missing
directory. -/
def removeTree (fs : FS) (dir : FPath) : FS :=
  fs.filter (fun e => !(dir.isPrefixOf e.1))

/-- Path of `main.agc` in the project folder. -/
def mainPath : FPath := ["main.agc"]

/-- Path of `main.agc.backup` in the project folder (line 1345). -/
def backupPath : FPath := ["main.agc.backup"]

/-- The `media` folder (line 1375). -/
def mediaDir : FPath := ["media"]

/-- The `media_exclude` staging folder (lines 1372, 1431). -/
def stagingDir : FPath := ["media_exclude"]

/-- Lines 1432-1439: walk `media_exclude` and move every file back to its
original relative path under `media` with `os.rename`. -/
def restoreExcludedMedia (fs : FS) : Except PyErr FS :=
  (filesUnder fs stagingDir).foldlM
    (fun acc e => osRename acc e.1 (mediaDir ++ e.1.drop 1)) fs

/-- The `finally` block of `AgkBuild.__init__` (lines 1428-1440):
`os.replace` the backup over `main.agc`, move the excluded media files back,
then remove the staging folder. -/
def agkFinally (fs : FS) : Except PyErr FS :=
  match osReplace fs backupPath mainPath with
  | .error e => .error e
  | .ok fs1 =>
    match restoreExcludedMedia fs1 with
    | .error e => .error e
    | .ok fs2 => .ok (removeTree fs2 stagingDir)

/-- Model of `AgkBuild.__init__` (lines 1344-1440), abstracted over the body of the
`try` statement: rename `main.agc` to `main.agc.backup`, run the body (the
source rewrite, the media staging, the compile and the per-platform exports,
which may stop with an exception), then run the `finally` block on whatever
state the body left.  The result pairs the final filesystem with the
propagated exception, if any: an exception raised by the `finally` block
replaces the body's exception, exactly as in Python. -/
def agkBuildInit (fs0 : FS) (body : FS → FS × Option PyErr) : FS × Option PyErr :=
  match osRename fs0 mainPath backupPath with
  | .error e => (fs0, some e)
  | .ok fs1 =>
    let r := body fs1
    match agkFinally r.1 with
    | .error e2 => (r.1, some e2)
    | .ok fs3 => (fs3, r.2)

/-! ### Filesystem lemmas -/

theorem fsGet_cons_self (e : FPath × String) (t : FS) (q : FPath)
    (h : e.1 = q) : fsGet (e :: t) q = some e.2 := by
  simp [fsGet, List.find?, h]

theorem fsGet_cons_ne (e : FPath × String) (t : FS) (q : FPath)
    (h : e.1 ≠ q) : fsGet (e :: t) q = fsGet t q := by
  simp [fsGet, List.find?, h]

/-- A filter that keeps every entry at path `p` does not change the lookup
at `p`. -/
theorem fsGet_filter (fs : FS) (p : FPath) (pred : FPath × String → Bool)
    (h : ∀ e : FPath × String, e.1 = p → pred e = true) :
    fsGet (fs.filter pred) p = fsGet fs p := by
  induction fs with
  | nil => rfl
  | cons e t ih =>
    by_cases hep : e.1 = p
    · have := h e hep
      simp [fsGet, List.filter, List.find?, hep, this]
    · by_cases hpe : pred e = true
      · rw [List.filter_cons_of_pos hpe, fsGet_cons_ne e _ p hep,
          fsGet_cons_ne e _ p hep]
        exact ih
      · rw [List.filter_cons_of_neg (by simpa using hpe),
          fsGet_cons_ne e _ p hep]
        exact ih

/-- A filter that drops every entry at path `p` makes the lookup at `p`
empty. -/
theorem fsGet_filter_none (fs : FS) (p : FPath) (pred : FPath × String → Bool)
    (h : ∀ e : FPath × String, e.1 = p → pred e = false) :
    fsGet (fs.filter pred) p = none := by
  induction fs with
  | nil => rfl
  | cons e t ih =>
    by_cases hep : e.1 = p
    · have := h e hep
      rw [List.filter_cons_of_neg (by simp [this])]
      exact ih
    · by_cases hpe : pred e = true
      · rw [List.filter_cons_of_pos hpe, fsGet_cons_ne e _ p hep]
        exact ih
      · rw [List.filter_cons_of_neg (by simpa using hpe)]
        exact ih

theorem fsGet_set_self (fs : FS) (p : FPath) (c : String) :
    fsGet (fsSet fs p c) p = some c := by
  rw [fsSet, fsGet_cons_self ⟨p, c⟩ _ p rfl]

theorem fsGet_erase_ne (fs : FS) (p q : FPath) (h : q ≠ p) :
    fsGet (fsErase fs p) q = fsGet fs q := by
  apply fsGet_filter
  intro e he
  rw [he]
  simp [h]

theorem fsGet_erase_self (fs : FS) (p : FPath) :
    fsGet (fsErase fs p) p = none := by
  apply fsGet_filter_none
  intro e he
  rw [he]
  simp

theorem fsGet_set_ne (fs : FS) (p q : FPath) (c : String) (h : q ≠ p) :
    fsGet (fsSet fs p c) q = fsGet fs q := by
  rw [fsSet, fsGet_cons_ne ⟨p, c⟩ _ q (fun hc => h hc.symm)]
  exact fsGet_erase_ne fs p q h

theorem osRename_ok (fs : FS) (src dst : FPath) (c : String)
    (h1 : fsGet fs src = some c) (h2 : fsGet fs dst = none) :
    osRename fs src dst = .ok (fsSet (fsErase fs src) dst c) := by
  simp [osRename, h1, h2]

theorem osReplace_ok (fs : FS) (src dst : FPath) (c : String)
    (h1 : fsGet fs src = some c) :
    osReplace fs src dst = .ok (fsSet (fsErase fs src) dst c) := by
  simp [osReplace, h1]

theorem fsGet_filesUnder (fs : FS) (dir p : FPath)
    (h : dir.isPrefixOf p = true) :
    fsGet (filesUnder fs dir) p = fsGet fs p := by
  apply fsGet_filter
  intro e he
  rw [he]
  exact h

theorem fsGet_removeTree_out (fs : FS) (dir p : FPath)
    (h : dir.isPrefixOf p = false) :
    fsGet (removeTree fs dir) p = fsGet fs p := by
  apply fsGet_filter
  intro e he
  rw [he, h]
  rfl

theorem filesUnder_removeTree (fs : FS) (dir : FPath) :
    filesUnder (removeTree fs dir) dir = [] := by
  rw [filesUnder, removeTree, List.filter_filter]
  apply List.filter_eq_nil_iff.mpr
  intro e _
  cases h : dir.isPrefixOf e.1 <;> simp [h]

/-- Filtering commutes with erase/set at paths outside the filter: `fsGet`
under a directory is unchanged by `fsSet`/`fsErase` at a path not under the
directory. -/
theorem filesUnder_erase_out (fs : FS) (dir p : FPath)
    (h : dir.isPrefixOf p = false) :
    filesUnder (fsErase fs p) dir = filesUnder fs dir := by
  rw [filesUnder, fsErase, List.filter_filter, filesUnder]
  apply List.filter_congr
  intro e _
  by_cases hep : e.1 = p
  · rw [hep, h]
    simp
  · simp [hep]

theorem filesUnder_set_out (fs : FS) (dir p : FPath) (c : String)
    (h : dir.isPrefixOf p = false) :
    filesUnder (fsSet fs p c) dir = filesUnder fs dir := by
  rw [fsSet, filesUnder, List.filter]
  rw [h]
  exact filesUnder_erase_out fs dir p h

/-! ### Path disjointness facts -/

theorem staging_ne_media (a b : FPath) : stagingDir ++ a ≠ mediaDir ++ b := by
  intro h
  simp [stagingDir, mediaDir] at h

theorem staging_ne_main (a : FPath) : stagingDir ++ a ≠ mainPath := by
  intro h
  simp [stagingDir, mainPath] at h

theorem staging_ne_backup (a : FPath) : stagingDir ++ a ≠ backupPath := by
  intro h
  simp [stagingDir, backupPath] at h

theorem media_ne_main (a : FPath) : mediaDir ++ a ≠ mainPath := by
  intro h
  simp [mediaDir, mainPath] at h

theorem media_ne_backup (a : FPath) : mediaDir ++ a ≠ backupPath := by
  intro h
  simp [mediaDir, backupPath] at h

theorem staging_append_inj (a b : FPath) (h : stagingDir ++ a = stagingDir ++ b) :
    a = b := by
  simpa [stagingDir] using h

theorem media_append_inj (a b : FPath) (h : mediaDir ++ a = mediaDir ++ b) :
    a = b := by
  simpa [mediaDir] using h

theorem staging_isPrefixOf_append (a : FPath) :
    stagingDir.isPrefixOf (stagingDir ++ a) = true := by
  simp [stagingDir, List.isPrefixOf]

theorem staging_not_isPrefixOf_media (a : FPath) :
    stagingDir.isPrefixOf (mediaDir ++ a) = false := by
  simp [stagingDir, mediaDir, List.isPrefixOf]

theorem staging_not_isPrefixOf_main :
    stagingDir.isPrefixOf mainPath = false := by
  decide

theorem staging_not_isPrefixOf_backup :
    stagingDir.isPrefixOf backupPath = false := by
  decide

/-- The lookup of a staged file in the association list produced by the walk,
assuming the staged relative paths are distinct. -/
theorem fsGet_staged_map (excl : List (FPath × String)) (e : FPath × String)
    (he : e ∈ excl) (hnd : (excl.map Prod.fst).Nodup) :
    fsGet (excl.map (fun x => (stagingDir ++ x.1, x.2))) (stagingDir ++ e.1) =
      some e.2 := by
  induction excl with
  | nil => cases he
  | cons a t ih =>
    rcases List.mem_cons.mp he with he | he
    · subst he
      exact fsGet_cons_self _ _ _ rfl
    · have hnd2 := (List.nodup_cons.mp hnd).2
      have hane : a.1 ∉ t.map Prod.fst := (List.nodup_cons.mp hnd).1
      have hne : stagingDir ++ a.1 ≠ stagingDir ++ e.1 := by
        intro hc
        have : a.1 = e.1 := staging_append_inj _ _ hc
        exact hane (this ▸ List.mem_map_of_mem Prod.fst he)
      rw [List.map_cons, fsGet_cons_ne _ _ _ hne]
      exact ih he hnd2

/-- Correctness of the restore loop (lines 1432-1439): starting from a state
where each staged file is present and its destination under `media` is free,
the fold of `os.rename` over the walked list succeeds, puts every file back,
and leaves every other path untouched. -/
theorem restore_fold (excl : List (FPath × String)) (fs : FS)
    (hsrc : ∀ e ∈ excl, fsGet fs (stagingDir ++ e.1) = some e.2)
    (hdst : ∀ e ∈ excl, fsGet fs (mediaDir ++ e.1) = none)
    (hnd : (excl.map Prod.fst).Nodup) :
    ∃ fsf,
      (excl.map (fun x => (stagingDir ++ x.1, x.2))).foldlM
        (fun acc e => osRename acc e.1 (mediaDir ++ e.1.drop 1)) fs = .ok fsf ∧
      (∀ e ∈ excl, fsGet fsf (mediaDir ++ e.1) = some e.2) ∧
      (∀ q : FPath, (∀ e ∈ excl, q ≠ stagingDir ++ e.1 ∧ q ≠ mediaDir ++ e.1) →
        fsGet fsf q = fsGet fs q) := by
  induction excl generalizing fs with
  | nil =>
    exact ⟨fs, rfl, fun e he => absurd he (List.not_mem_nil e), fun q _ => rfl⟩
  | cons a t ih =>
    have hnd2 := (List.nodup_cons.mp hnd).2
    have hane : a.1 ∉ t.map Prod.fst := (List.nodup_cons.mp hnd).1
    have hdrop : (stagingDir ++ a.1).drop 1 = a.1 := by
      simp [stagingDir]
    have hren : osRename fs (stagingDir ++ a.1) (mediaDir ++ a.1) =
        .ok (fsSet (fsErase fs (stagingDir ++ a.1)) (mediaDir ++ a.1) a.2) :=
      osRename_ok fs _ _ a.2 (hsrc a (List.mem_cons_self a t))
        (hdst a (List.mem_cons_self a t))
    set fs1 := fsSet (fsErase fs (stagingDir ++ a.1)) (mediaDir ++ a.1) a.2 with hfs1
    have hget1 : ∀ q : FPath, q ≠ stagingDir ++ a.1 → q ≠ mediaDir ++ a.1 →
        fsGet fs1 q = fsGet fs q := by
      intro q hq1 hq2
      rw [hfs1, fsGet_set_ne _ _ _ _ hq2, fsGet_erase_ne _ _ _ hq1]
    have hsrc2 : ∀ e ∈ t, fsGet fs1 (stagingDir ++ e.1) = some e.2 := by
      intro e he
      have h1 : stagingDir ++ e.1 ≠ stagingDir ++ a.1 := by
        intro hc
        have : e.1 = a.1 := staging_append_inj _ _ hc
        exact hane (this ▸ List.mem_map_of_mem Prod.fst he)
      rw [hget1 _ h1 (staging_ne_media e.1 a.1)]
      exact hsrc e (List.mem_cons_of_mem a he)
    have hdst2 : ∀ e ∈ t, fsGet fs1 (mediaDir ++ e.1) = none := by
      intro e he
      have h1 : mediaDir ++ e.1 ≠ stagingDir ++ a.1 :=
        fun hc => staging_ne_media a.1 e.1 hc.symm
      have h2 : mediaDir ++ e.1 ≠ mediaDir ++ a.1 := by
        intro hc
        have : e.1 = a.1 := media_append_inj _ _ hc
        exact hane (this ▸ List.mem_map_of_mem Prod.fst he)
      rw [hget1 _ h1 h2]
      exact hdst e (List.mem_cons_of_mem a he)
    obtain ⟨fsf, hfold, hput, hpres⟩ := ih fs1 hsrc2 hdst2 hnd2
    refine ⟨fsf, ?_, ?_, ?_⟩
    · rw [List.map_cons, List.foldlM_cons, hdrop, hren]
      exact hfold
    · intro e he
      rcases List.mem_cons.mp he with he | he
      · subst he
        have havoid : ∀ x ∈ t, mediaDir ++ e.1 ≠ stagingDir ++ x.1 ∧
            mediaDir ++ e.1 ≠ mediaDir ++ x.1 := by
          intro x hx
          refine ⟨fun hc => staging_ne_media x.1 e.1 hc.symm, ?_⟩
          intro hc
          have : e.1 = x.1 := media_append_inj _ _ hc
          exact hane (this ▸ List.mem_map_of_mem Prod.fst hx)
        rw [hpres _ havoid, hfs1, fsGet_set_self]
      · exact hput e he
    · intro q hq
      have hqt : ∀ e ∈ t, q ≠ stagingDir ++ e.1 ∧ q ≠ mediaDir ++ e.1 :=
        fun e he => hq e (List.mem_cons_of_mem a he)
      have hqa := hq a (List.mem_cons_self a t)
      rw [hpres q hqt]
      exact hget1 q hqa.1 hqa.2

/-- Correctness of the whole `finally` block (lines 1428-1440). -/
theorem agkFinally_spec (fs : FS) (c : String) (excl : List (FPath × String))
    (hback : fsGet fs backupPath = some c)
    (hstag : filesUnder fs stagingDir =
      excl.map (fun x => (stagingDir ++ x.1, x.2)))
    (hdst : ∀ e ∈ excl, fsGet fs (mediaDir ++ e.1) = none)
    (hnd : (excl.map Prod.fst).Nodup) :
    ∃ fs3, agkFinally fs = .ok fs3 ∧
      fsGet fs3 mainPath = some c ∧
      fsGet fs3 backupPath = none ∧
      (∀ e ∈ excl, fsGet fs3 (mediaDir ++ e.1) = some e.2) ∧
      filesUnder fs3 stagingDir = [] := by
  set fs1 := fsSet (fsErase fs backupPath) mainPath c with hfs1
  have hrepl : osReplace fs backupPath mainPath = .ok fs1 :=
    osReplace_ok fs _ _ c hback
  have hget1 : ∀ q : FPath, q ≠ backupPath → q ≠ mainPath →
      fsGet fs1 q = fsGet fs q := by
    intro q hq1 hq2
    rw [hfs1, fsGet_set_ne _ _ _ _ hq2, fsGet_erase_ne _ _ _ hq1]
  have hfu1 : filesUnder fs1 stagingDir =
      excl.map (fun x => (stagingDir ++ x.1, x.2)) := by
    rw [hfs1, filesUnder_set_out _ _ _ _ staging_not_isPrefixOf_main,
      filesUnder_erase_out _ _ _ staging_not_isPrefixOf_backup]
    exact hstag
  have hsrc1 : ∀ e ∈ excl, fsGet fs1 (stagingDir ++ e.1) = some e.2 := by
    intro e he
    rw [← fsGet_filesUnder fs1 stagingDir _ (staging_isPrefixOf_append e.1), hfu1]
    exact fsGet_staged_map excl e he hnd
  have hdst1 : ∀ e ∈ excl, fsGet fs1 (mediaDir ++ e.1) = none := by
    intro e he
    rw [hget1 _ (media_ne_backup e.1) (media_ne_main e.1)]
    exact hdst e he
  obtain ⟨fsf, hfold, hput, hpres⟩ := restore_fold excl fs1 hsrc1 hdst1 hnd
  have hmedia : restoreExcludedMedia fs1 = .ok fsf := by
    rw [restoreExcludedMedia, hfu1]
    exact hfold
  have hpres_main : fsGet fsf mainPath = some c := by
    rw [hpres mainPath (fun e _ =>
        ⟨fun hc => staging_ne_main e.1 hc.symm, fun hc => media_ne_main e.1 hc.symm⟩),
      hfs1, fsGet_set_self]
  have hpres_backup : fsGet fsf backupPath = none := by
    rw [hpres backupPath (fun e _ =>
        ⟨fun hc => staging_ne_backup e.1 hc.symm, fun hc => media_ne_backup e.1 hc.symm⟩),
      hfs1, fsGet_set_ne _ _ _ _ (by decide), fsGet_erase_self]
  refine ⟨removeTree fsf stagingDir, ?_, ?_, ?_, ?_, ?_⟩
  · simp only [agkFinally, hrepl, hmedia]
  · rw [fsGet_removeTree_out _ _ _ staging_not_isPrefixOf_main]
    exact hpres_main
  · rw [fsGet_removeTree_out _ _ _ staging_not_isPrefixOf_backup]
    exact hpres_backup
  · intro e he
    rw [fsGet_removeTree_out _ _ _ (staging_not_isPrefixOf_media e.1)]
    exact hput e he
  · exact filesUnder_removeTree fsf stagingDir

/-- Correctness of `AgkBuild.__init__` (lines 1344-1440): for any outcome of
the `try` body — normal return (`err = none`) or an exception
(`err = some e`) — provided the body leaves the backup file in place with
the original source content and the staging folder holding exactly the
excluded media files (with their destinations under `media` free), the
constructor finishes with `main.agc` restored to its original content, no
backup file, every excluded file back under `media`, no staging files left,
and the body's exception propagated unchanged. -/
theorem agkBuildInit_spec (fs0 : FS) (body : FS → FS × Option PyErr) (c : String)
    (excl : List (FPath × String)) (fs2 : FS) (err : Option PyErr)
    (hm0 : fsGet fs0 mainPath = some c)
    (hb0 : fsGet fs0 backupPath = none)
    (hbody : body (fsSet (fsErase fs0 mainPath) backupPath c) = (fs2, err))
    (hback : fsGet fs2 backupPath = some c)
    (hstag : filesUnder fs2 stagingDir =
      excl.map (fun x => (stagingDir ++ x.1, x.2)))
    (hdst : ∀ e ∈ excl, fsGet fs2 (mediaDir ++ e.1) = none)
    (hnd : (excl.map Prod.fst).Nodup) :
    ∃ fs3, agkBuildInit fs0 body = (fs3, err) ∧
      fsGet fs3 mainPath = some c ∧
      fsGet fs3 backupPath = none ∧
      (∀ e ∈ excl, fsGet fs3 (mediaDir ++ e.1) = some e.2) ∧
      filesUnder fs3 stagingDir = [] := by
  have hren : osRename fs0 mainPath backupPath =
      .ok (fsSet (fsErase fs0 mainPath) backupPath c) :=
    osRename_ok fs0 _ _ c hm0 hb0
  obtain ⟨fs3, hfin, h1, h2, h3, h4⟩ := agkFinally_spec fs2 c excl hback hstag hdst hnd
  refine ⟨fs3, ?_, h1, h2, h3, h4⟩
  simp only [agkBuildInit, hren, hbody, hfin]

/-! ## Concrete fixtures used by the evidence theorems -/

/-- A well-formed Firebase config file with one client entry whose Android
package name is `com.example.demo`. -/
def sampleFirebaseConfig : Json :=
  .obj [("project_info", .obj [("project_number", .str "123456789"),
                               ("firebase_url", .str "https://demo.firebaseio.com")]),
        ("client", .arr [.obj [
          ("client_info", .obj [("mobilesdk_app_id", .str "1:123:android:abc"),
            ("android_client_info", .obj [("package_name", .str "com.example.demo")])]),
          ("api_key", .obj [("current_key", .str "AIzaKey")])]])]

/-- A `values.xml` body containing every resource-string entry the Firebase
section substitutes into. -/
def sampleValuesXml : String :=
  "<resources><string name=\"gcm_defaultSenderId\" translatable=\"false\">0</string><string name=\"firebase_database_url\" translatable=\"false\">u</string><string name=\"google_app_id\" translatable=\"false\">a</string><string name=\"google_api_key\" translatable=\"false\">k</string><string name=\"google_crash_reporting_api_key\" translatable=\"false\">k</string></resources>"

/-- A two-file project state: the main source file and one media file. -/
def fs0W : FS := [(mainPath, "SRC"), (mediaDir ++ ["a.png"], "IMG")]

/-- A `try`-body that stages the one excluded media file and returns
normally: the filesystem effect of lines 1371-1378 for
`exclude_media = ['a.png']`. -/
def bodyW : FS → FS × Option PyErr :=
  fun fs =>
    (fsSet (fsErase fs (mediaDir ++ ["a.png"])) (stagingDir ++ ["a.png"]) "IMG", none)

end Agk

deriving instance DecidableEq for Except

namespace Agk

/-! ## The claims -/

/-- C1 (counterexample): the Release Path Namer, called for platform
`windows` with both architectures selected (`arch = 3`), display name
`MyGame`, version `1.2` and release qualifier `beta`, does *not* produce the
folder name `MyGame_1.2_windows_x86_x64_beta` claimed by the spec:
`_Architecture.__str__` joins the codes with the `x` stripped from all but
the first, giving `x86_64`. -/
theorem c1_scenario_counterexample :
    releaseFolderName "MyGame" "1.2" "beta" "windows" 3 ≠
      "MyGame_1.2_windows_x86_x64_beta" := by decide

/-- C1 (amended): the folder name produced for that scenario is exactly
`MyGame_1.2_windows_x86_64_beta`, and `get_release_folder` places it under
`<base>/release`. -/
theorem c1_scenario_amended :
    releaseFolderName "MyGame" "1.2" "beta" "windows" 3 =
      "MyGame_1.2_windows_x86_64_beta" ∧
    get_release_folder "proj" "MyGame" "1.2" "beta" "windows" 3 =
      ["proj", "release", "MyGame_1.2_windows_x86_64_beta"] := by decide

/-- C2: for every export run of `AgkBuild.__init__` — normal return or any
exception raised after `main.agc` was renamed — on exit `main.agc` is back
with its original content, no `main.agc.backup` remains, and every excluded
media file is back at its original relative path under `media`.  The `try`
body is abstract; the hypotheses say only that it leaves the backup file
untouched and the staging folder holding exactly the excluded files, which
is how the source's body behaves (it only writes the rewritten `main.agc`,
stages the excluded files, and exports into `release` and `build_tmp`). -/
theorem c2_restore_protocol (fs0 : FS) (body : FS → FS × Option PyErr)
    (c : String) (excl : List (FPath × String)) (fs2 : FS) (err : Option PyErr)
    (hm0 : fsGet fs0 mainPath = some c)
    (hb0 : fsGet fs0 backupPath = none)
    (hbody : body (fsSet (fsErase fs0 mainPath) backupPath c) = (fs2, err))
    (hback : fsGet fs2 backupPath = some c)
    (hstag : filesUnder fs2 stagingDir =
      excl.map (fun x => (stagingDir ++ x.1, x.2)))
    (hdst : ∀ e ∈ excl, fsGet fs2 (mediaDir ++ e.1) = none)
    (hnd : (excl.map Prod.fst).Nodup) :
    ∃ fs3, agkBuildInit fs0 body = (fs3, err) ∧
      fsGet fs3 mainPath = some c ∧
      fsGet fs3 backupPath = none ∧
      (∀ e ∈ excl, fsGet fs3 (mediaDir ++ e.1) = some e.2) ∧
      filesUnder fs3 stagingDir = [] :=
  agkBuildInit_spec fs0 body c excl fs2 err hm0 hb0 hbody hback hstag hdst hnd

/-- C2 (witness): a concrete run with one excluded media file and a normal
return: the source file and the media file are restored. -/
theorem c2_restore_protocol_witness :
    ∃ fs3, agkBuildInit fs0W bodyW = (fs3, none) ∧
      fsGet fs3 mainPath = some "SRC" ∧
      fsGet fs3 backupPath = none ∧
      (∀ e ∈ [((["a.png"] : FPath), "IMG")], fsGet fs3 (mediaDir ++ e.1) = some e.2) ∧
      filesUnder fs3 stagingDir = [] :=
  c2_restore_protocol fs0W bodyW "SRC" [(["a.png"], "IMG")]
    (fsSet (fsErase (fsSet (fsErase fs0W mainPath) backupPath "SRC")
      (mediaDir ++ ["a.png"])) (stagingDir ++ ["a.png"]) "IMG") none
    (by decide) (by decide) (by decide) (by decide) (by decide) (by decide) (by decide)

/-- C3 (counterexample): with permission bitmask `0` but a non-empty Google
Play app id on the Google variant, the manifest still gains a
`uses-permission` line (`com.google.android.c2dm.permission.RECEIVE`,
line 628-629), so the claim "bitmask 0 implies zero permission lines for
every settings bag" is false. -/
theorem c3_zero_permissions_counterexample :
    containsLit "<uses-permission" (permissionBlock 0 0 "12345" "com.example.game") =
      true := by decide

/-- C3 (amended): with permission bitmask `0` the permission block is empty
for the Amazon and Ouya variants, and for the Google variant whenever the
Google Play app id is empty. -/
theorem c3_zero_permissions_amended :
    ∀ (appType : Nat) (googlePlayAppId packageName : String),
      (appType ≠ 0 ∨ googlePlayAppId = "") →
      permissionBlock 0 appType googlePlayAppId packageName = "" := by
  intro appType pid pkg h
  rcases h with h | h <;> simp [permissionBlock, Nat.zero_testBit, h]

/-- C3 (witness): the Amazon variant with bitmask `0` gets an empty
permission block. -/
theorem c3_zero_permissions_witness :
    permissionBlock 0 1 "12345" "com.example.game" = "" :=
  c3_zero_permissions_amended 1 "12345" "com.example.game" (Or.inl (by decide))

/-- C4 (counterexample): an out-of-range stored orientation value does not
default to `fullSensor`: the stored value `3` raises `IndexError` (the list
`[LANDSCAPE, PORTRAIT, ALL][orientation]` at lines 426-428 has no default),
so the claim that out-of-range values default instead of failing is false. -/
theorem c4_orientation_counterexample :
    selectOrientation none 3 = .error .indexError := by decide

/-- C4 (amended): the stored values 0, 1, 2 select the three mutually
exclusive orientation names (2 gives `fullSensor`, which leaves the
template's `screenOrientation="fullSensor"` placeholder in place), and an
out-of-range stored value fails: values `≥ 3` or `< -3` raise `IndexError`
rather than defaulting to `fullSensor`. -/
theorem c4_orientation_amended :
    selectOrientation none 0 = .ok Orient.landscape ∧
    selectOrientation none 1 = .ok Orient.portrait ∧
    selectOrientation none 2 = .ok Orient.all ∧
    ORIENTATION_NAMES Orient.all = "fullSensor" ∧
    manifestOrientationStep Orient.all
      "<activity android:screenOrientation=\"fullSensor\" />" =
      .ok "<activity android:screenOrientation=\"fullSensor\" />" ∧
    (∀ v : Int, 3 ≤ v → selectOrientation none v = .error .indexError) ∧
    (∀ v : Int, v < -3 → selectOrientation none v = .error .indexError) := by
  refine ⟨by decide, by decide, by decide, by decide, by decide, ?_, ?_⟩
  · intro v hv
    simp only [selectOrientation, orientationFromStored, pyIndex, List.length_cons,
      List.length_nil]
    split
    · exfalso
      rename_i hvn
      omega
    · split
      · rename_i hc
        exfalso
        omega
      · rfl
  · intro v hv
    simp only [selectOrientation, orientationFromStored, pyIndex, List.length_cons,
      List.length_nil]
    split
    · split
      · rename_i hc
        exfalso
        omega
      · rfl
    · exfalso
      rename_i hvn
      omega

/-- C4 (witness): the out-of-range stored value 5 raises `IndexError`. -/
theorem c4_orientation_witness :
    selectOrientation none 5 = .error .indexError :=
  c4_orientation_amended.2.2.2.2.2.1 5 (by decide)

/-- C5: the deep-link validation contradicts its own error messages: the
regex `http[s]://` (line 512) requires the literal `s`, so
`http://example.com` — which does start with `http://` — is rejected with
the message "Deep link must start with http:// or https://", and the domain
check `http[s]://.+` (line 514) accepts any character after the scheme, so
`https:///` passes with no host.  A well-formed `https://` link is
accepted. -/
theorem c5_deep_link_code_bug :
    validateDeepLink "http://example.com" =
      .error (.valueError "Deep link must start with http:// or https://") ∧
    validateDeepLink "https:///" = .ok () ∧
    validateDeepLink "https://example.com" = .ok () := by decide

/-- C6 (counterexample): the manifest placeholder replacement is a plain
`re.sub` with no zero-match check (lines 647-648): on a template without the
`screenOrientation="fullSensor"` token the substitution matches zero times
and synthesis continues silently instead of raising, so the claim that
*every* required substitution raises on zero matches is false. -/
theorem c6_substitution_counterexample :
    countOccsS "screenOrientation=\"fullSensor\"" "<manifest/>" = 0 ∧
    manifestOrientationStep Orient.all "<manifest/>" = .ok "<manifest/>" := by decide

/-- C6 (amended): the `values.xml` resource-string replacement and the two
HTML5 loader-script placeholders do raise a `ValueError` identifying the
missing token when the pattern matches zero times; only the manifest
replacements are unchecked. -/
theorem c6_substitution_amended :
    (∀ appName contents : String,
      (replEntryF "<string name=\"app_name\">".data appName.data
        contents.data.length contents.data).2 = 0 →
      valuesAppNameStep appName contents =
        .error (.valueError "Could not find app_name entry in values.xml file.")) ∧
    (∀ a l s : String, countOccsS "%%ADDITIONALFOLDERS%%" s = 0 →
      editAgkPlayerJs a l s = .error (.valueError
        "AGKPlayer.js is corrupt, it is missing the %%ADDITIONALFOLDERS%% variable.")) ∧
    (∀ a l s : String, countOccsS "%%ADDITIONALFOLDERS%%" s ≠ 0 →
      countOccsS "%%LOADPACKAGE%%" (replaceLitS "%%ADDITIONALFOLDERS%%" a s) = 0 →
      editAgkPlayerJs a l s = .error (.valueError
        "AGKPlayer.js is corrupt, it is missing the %%LOADPACKAGE%% variable.")) := by
  refine ⟨?_, ?_, ?_⟩
  · intro appName contents h
    simp only [valuesAppNameStep, subnEntryCheck]
    rw [if_pos h]
  · intro a l s h
    simp only [editAgkPlayerJs, subnLiteralCheck]
    rw [if_pos h]
  · intro a l s h1 h2
    simp only [editAgkPlayerJs, subnLiteralCheck]
    rw [if_neg h1]
    exact if_pos h2

/-- C6 (witness): an empty `AGKPlayer.js` template raises the
`%%ADDITIONALFOLDERS%%` error. -/
theorem c6_substitution_witness :
    editAgkPlayerJs "F" "L" "" = .error (.valueError
      "AGKPlayer.js is corrupt, it is missing the %%ADDITIONALFOLDERS%% variable.") :=
  c6_substitution_amended.2.1 "F" "L" "" (by decide)

set_option maxRecDepth 100000 in
/-- C7: the Firebase client-entry selection (lines 863-864) applies `next`
to a *list comprehension*, and `next` on a list raises
`TypeError: 'list' object is not an iterator` unconditionally, so even a
config file whose client entry matches the target package name never has its
`mobilesdk_app_id` and `current_key` injected; the "no matching client"
error message is unreachable.  The key-path errors before the selection
(`project_number`) behave as claimed. -/
theorem c7_firebase_code_bug :
    firebaseValuesStep sampleFirebaseConfig "com.example.demo" sampleValuesXml =
      .error .typeError ∧
    firebaseValuesStep (.obj []) "com.example.demo" sampleValuesXml =
      .error (.keyError "Could not find project_number entry in Firebase config file.") := by
  constructor <;> decide

/-- C8 (counterexample): the Release Path Namer output can contain a doubled
underscore: the display name `A_` (whose safe name still ends in `_`) gives
the folder name `A__windows`, so the "no doubled or trailing separator for
all settings bags" claim is false — only the display name is sanitized, and
the sanitizer keeps underscores. -/
theorem c8_namer_counterexample :
    noDbl (releaseFolderName "A_" "" "" "windows" 0).data = false := by decide

/-- C8 (amended): the display-name segment is exactly the name filtered to
`[A-Za-z0-9_]`; absent optional segments are omitted together with their
separator; and the output has no doubled and no trailing underscore provided
the sanitized name, the platform label, and each present optional segment
are themselves free of leading/trailing/doubled underscores. -/
theorem c8_namer_amended :
    (∀ name : String, (safe_name name).data = name.data.filter isWordChar) ∧
    (∀ name platformName : String,
      releaseFolderName name "" "" platformName 0 =
        safe_name name ++ "_" ++ platformName) ∧
    (∀ (name version releaseName platformName : String) (arch : Nat),
      goodSeg (safe_name name) = true →
      (version = "" ∨ goodSeg version = true) →
      (releaseName = "" ∨ goodSeg releaseName = true) →
      goodSeg platformName = true →
      noDbl (releaseFolderName name version releaseName platformName arch).data = true ∧
      lastNotU (releaseFolderName name version releaseName platformName arch).data = true) := by
  refine ⟨fun name => rfl, ?_, releaseFolder_shape⟩
  intro name platformName
  simp [releaseFolderName, optSeg]

/-- C8 (witness): a concrete well-behaved settings bag produces a folder
name with no doubled and no trailing underscore. -/
theorem c8_namer_witness :
    noDbl (releaseFolderName "My Game" "1.2" "beta" "windows" 3).data = true ∧
    lastNotU (releaseFolderName "My Game" "1.2" "beta" "windows" 3).data = true :=
  c8_namer_amended.2.2 "My Game" "1.2" "beta" "windows" 3 (by decide)
    (Or.inr (by decide)) (Or.inr (by decide)) (by decide)

/-- C9 (counterexample): the validations do *not* all complete before the
first filesystem mutation outside the scratch workspace:
`os.makedirs` of the release output directory (line 484) runs before the
app-name check (line 486), so a failing app name leaves a freshly created
release directory behind. -/
theorem c9_validation_order_counterexample :
    ¬ apkValidationsFirst (apkExportTrace 0 false false) := by
  unfold apkValidationsFirst
  decide

/-- C9 (amended): the only filesystem mutation outside the scratch workspace
that precedes any validation is the `os.makedirs` of the release output
directory, which itself runs after the two output-location checks; every
other outside mutation comes after every validation. -/
theorem c9_validation_order_amended :
    (∀ (appType : Fin 3) (hasAppIcon hasNotifIcon : Bool)
      (i j : Fin (apkExportTrace appType hasAppIcon hasNotifIcon).length),
      ((apkExportTrace appType hasAppIcon hasNotifIcon).get i).isValidation = true →
      ((apkExportTrace appType hasAppIcon hasNotifIcon).get j).isOutsideMutation = true →
      (apkExportTrace appType hasAppIcon hasNotifIcon).get j = .mMakeReleaseDir ∨
        (i : Nat) < (j : Nat)) ∧
    (∀ (appType : Fin 3) (hasAppIcon hasNotifIcon : Bool),
      (apkExportTrace appType hasAppIcon hasNotifIcon).take 3 =
        [.vOutputNonempty, .vOutputIsFile, .mMakeReleaseDir]) := by
  constructor <;> decide

/-- C9 (witness): in a Google export without icons, the app-name validation
(index 3) precedes the apk write (index 18). -/
theorem c9_validation_order_witness :
    (apkExportTrace 0 false false).get ⟨18, by decide⟩ = ApkEvent.mMakeReleaseDir ∨
      ((⟨3, by decide⟩ : Fin (apkExportTrace 0 false false).length) : Nat) <
        ((⟨18, by decide⟩ : Fin (apkExportTrace 0 false false).length) : Nat) :=
  c9_validation_order_amended.1 0 false false ⟨3, by decide⟩ ⟨18, by decide⟩
    (by decide) (by decide)

/-- C10: the app-name validation accepts a name exactly when it is
non-empty, at most 30 characters, and made only of letters, digits, space,
hyphen and underscore; a 30-character name is accepted even though the
31-character rejection message says the name "must be less than 30
characters". -/
theorem c10_app_name_rule :
    (∀ appName : String, validateAppName appName = .ok () ↔
      (appName ≠ "" ∧ appName.data.length ≤ 30 ∧
        ∀ c ∈ appName.data, isAppNameChar c = true)) ∧
    validateAppName "AAAAAAAAAAAAAAAAAAAAAAAAAAAAAA" = .ok () ∧
    validateAppName "AAAAAAAAAAAAAAAAAAAAAAAAAAAAAAA" =
      .error (.valueError "App name must be less than 30 characters.") := by
  refine ⟨?_, by decide, by decide⟩
  intro s
  unfold validateAppName
  split_ifs with h1 h2 h3
  · simp [h1]
  · constructor
    · intro h
      cases h
    · rintro ⟨_, hlen, _⟩
      omega
  · constructor
    · intro h
      cases h
    · rintro ⟨_, _, hall⟩
      rw [List.any_eq_true] at h3
      obtain ⟨c, hc, hneg⟩ := h3
      have := hall c hc
      simp [this] at hneg
  · constructor
    · intro _
      refine ⟨h1, by omega, ?_⟩
      intro c hc
      by_contra hcontra
      exact h3 (List.any_eq_true.mpr ⟨c, hc, by simp [hcontra]⟩)
    · intro _
      rfl

end Agk
